import Mathlib

/-!
# Verification of the `controlefinaceiro` analytics engine

A shallow embedding, over `Rat`, of the analytics functions of
`src/analytics.py` (class `FinanceAnalytics`) together with the relevant
parts of `src/database.py` (class `FinanceDatabase`) that feed them, and
proofs of the testable properties stated for them.

Modelling conventions:
* Monetary amounts are `Rat` (the Python code uses floats; all the
  properties verified here are about ordering, clamping and exact
  arithmetic identities, which the rational model captures).
* Dates are `(year, month, day)` triples; the analytics functions receive
  the transaction list already restricted to their query window, exactly
  as `db.get_transactions(start, end)` hands the window to them.
* `detect_anomalies` divides by a standard deviation, a square root, so
  the embedding carries the *square* of each z-score (`zSq`).  Every
  comparison the Python code performs on z-scores (against the threshold,
  against 3, and the final sort) is order-isomorphic to the comparison of
  the squares, which `sqrtGT` below makes explicit.
-/

namespace ControleFinanceiro

/-- A calendar date as stored in the `transactions` table (`YYYY-MM-DD`). -/
structure Date where
  year : Nat
  month : Nat
  day : Nat
deriving DecidableEq, Repr

/-- A row of the `transactions` table (the columns the analytics use). -/
structure Transaction where
  id : Nat
  date : Date
  description : String
  amount : Rat
  category : String
  txType : String
deriving DecidableEq, Repr

/-- A row of `FinanceDatabase.get_monthly_summary`: per `(category, type)`
`SUM(amount)` and `COUNT(*)` for one calendar month. -/
structure SummaryRow where
  category : String
  txType : String
  total : Rat
  count : Nat
deriving DecidableEq, Repr

/-- Helper for `uniqueFirst`: keep the elements not seen before, threading
the set of already-seen elements. -/
def uniqueFirstAux {α : Type} [DecidableEq α] (seen : List α) : List α → List α
  | [] => []
  | a :: rest =>
    if a ∈ seen then uniqueFirstAux seen rest else a :: uniqueFirstAux (a :: seen) rest

/-- First-occurrence deduplication, as `pandas.Series.unique` returns the
distinct values in order of appearance. -/
def uniqueFirst {α : Type} [DecidableEq α] (l : List α) : List α :=
  uniqueFirstAux [] l

/-! ## `get_monthly_summary` (database.py)

`SELECT category, type, SUM(amount) AS total, COUNT(*) AS count
 FROM transactions WHERE strftime(year)=? AND strftime(month)=?
 GROUP BY category, type ORDER BY total DESC`. -/

/-- The distinct `(category, type)` keys of a transaction list, in first
encounter order. -/
def summaryKeys (txns : List Transaction) : List (String × String) :=
  uniqueFirst (txns.map fun t => (t.category, t.txType))

/-- The grouped rows before the `ORDER BY`. -/
def summaryRowsUnsorted (txns : List Transaction) : List SummaryRow :=
  (summaryKeys txns).map fun k =>
    let matching := txns.filter fun t => t.category == k.1 && t.txType == k.2
    { category := k.1
      txType := k.2
      total := (matching.map Transaction.amount).sum
      count := matching.length }

/-- `ORDER BY total DESC`: descending comparison on `total`. -/
def rowGE (r₁ r₂ : SummaryRow) : Prop := r₂.total ≤ r₁.total

instance : DecidableRel rowGE := fun r₁ r₂ => inferInstanceAs (Decidable (r₂.total ≤ r₁.total))

instance : IsTotal SummaryRow rowGE := ⟨fun r₁ r₂ => le_total r₂.total r₁.total⟩

instance : IsTrans SummaryRow rowGE := ⟨fun _ _ _ h₁ h₂ => le_trans h₂ h₁⟩

/-- `FinanceDatabase.get_monthly_summary year month` over a transaction
table `txns`.  (SQLite's `ORDER BY` leaves the order of tied rows open;
a stable sort realises one admissible order, and nothing proved below
depends on how `ORDER BY` breaks ties.) -/
def getMonthlySummary (txns : List Transaction) (year month : Nat) : List SummaryRow :=
  let monthTxns := txns.filter fun t => t.date.year == year && t.date.month == month
  (summaryRowsUnsorted monthTxns).insertionSort rowGE

/-! ## `calculate_category_insights` (analytics.py) -/

/-- One insertion into a Python `dict`: an existing key keeps its position
and gets the new value, a new key is appended. -/
def dictInsert (l : List (String × Rat)) (k : String) (v : Rat) : List (String × Rat) :=
  match l with
  | [] => [(k, v)]
  | (k', v') :: rest => if k' = k then (k', v) :: rest else (k', v') :: dictInsert rest k v

/-- `expenses.set_index('category')['total'].to_dict()`: build the
category → total mapping row by row. -/
def toDict (rows : List SummaryRow) : List (String × Rat) :=
  rows.foldl (fun acc r => dictInsert acc r.category r.total) []

/-- The insight bundle built by `calculate_category_insights`. -/
structure Insights where
  total_income : Rat
  total_expenses : Rat
  balance : Rat
  savings_rate : Rat
  top_expense_categories : List SummaryRow
  expense_distribution : List (String × Rat)
deriving DecidableEq, Repr

/-- `FinanceAnalytics.calculate_category_insights`, as a function of the
monthly summary rows it queries.  `None` models the empty dict returned
when the month has no rows.  `nlargest(5, 'total')` with the default
`keep='first'` is a stable descending sort by `total` followed by `head(5)`. -/
def calculateCategoryInsights (monthly_data : List SummaryRow) : Option Insights :=
  if monthly_data.isEmpty then none
  else
    let expenses := monthly_data.filter fun r => r.txType == "despesa"
    let income := monthly_data.filter fun r => r.txType == "receita"
    let total_expenses := (expenses.map SummaryRow.total).sum
    let total_income := (income.map SummaryRow.total).sum
    some
      { total_income := total_income
        total_expenses := total_expenses
        balance := total_income - total_expenses
        savings_rate :=
          if 0 < total_income then (total_income - total_expenses) / total_income * 100 else 0
        top_expense_categories := (expenses.insertionSort rowGE).take 5
        expense_distribution := toDict expenses }

/-! ## `generate_financial_score` (analytics.py) -/

/-- The second component of `generate_financial_score`'s result: either the
bare string `"Dados insuficientes"` or the list of factor strings. -/
inductive ScoreFactors where
  | msg (s : String)
  | factors (l : List String)
deriving DecidableEq, Repr

/-- Factor 1 of the score loop: savings-rate tier, `(points, factor string)`. -/
def savingsFactor (savings_rate : Rat) : Int × String :=
  if 20 ≤ savings_rate then (40, "Excelente taxa de poupança")
  else if 10 ≤ savings_rate then (30, "Boa taxa de poupança")
  else if 0 ≤ savings_rate then (20, "Taxa de poupança baixa")
  else (0, "Gastando mais que ganha")

/-- Factor 2: diversification tier over
`len(insights['expense_distribution'])`. -/
def diversificationFactor (expense_categories : Nat) : Int × String :=
  if 5 ≤ expense_categories then (30, "Boa diversificação de gastos")
  else if 3 ≤ expense_categories then (20, "Diversificação moderada")
  else (10, "Poucos tipos de gastos registrados")

/-- Factor 3: consistency tier over `monthly_data['count'].sum()`. -/
def consistencyFactor (total_transactions : Nat) : Int × String :=
  if 20 ≤ total_transactions then (30, "Registro consistente de transações")
  else if 10 ≤ total_transactions then (20, "Registro moderado de transações")
  else (10, "Poucos registros de transações")

/-- `FinanceAnalytics.generate_financial_score`, as a function of the
current month's summary rows (both `calculate_category_insights` and the
consistency factor query the same `get_monthly_summary`). -/
def generateFinancialScore (monthly_data : List SummaryRow) : Int × ScoreFactors :=
  match calculateCategoryInsights monthly_data with
  | none => (0, ScoreFactors.msg "Dados insuficientes")
  | some insights =>
    let p1 := savingsFactor insights.savings_rate
    let p2 := diversificationFactor insights.expense_distribution.length
    let p3 := consistencyFactor (monthly_data.map SummaryRow.count).sum
    (min (p1.1 + p2.1 + p3.1) 100, ScoreFactors.factors [p1.2, p2.2, p3.2])

/-- The points the score loop adds alongside each factor string it emits. -/
def factorPoints : String → Int
  | "Excelente taxa de poupança" => 40
  | "Boa taxa de poupança" => 30
  | "Taxa de poupança baixa" => 20
  | "Gastando mais que ganha" => 0
  | "Boa diversificação de gastos" => 30
  | "Diversificação moderada" => 20
  | "Poucos tipos de gastos registrados" => 10
  | "Registro consistente de transações" => 30
  | "Registro moderado de transações" => 20
  | "Poucos registros de transações" => 10
  | _ => 0

/-! ## `predict_annual_projection` (analytics.py) -/

/-- One per-category projection record. -/
structure Projection where
  monthly_predictions : List Rat
  annual_total : Rat
  average_monthly : Rat
  trend : String
  confidence : Rat
deriving DecidableEq, Repr

/-- `df.groupby(['month_num', 'category', 'type'])['amount'].sum()`:
one row `(month_num, category, type, summed amount)` per distinct key.
(The claims proved below do not depend on the order pandas returns the
groups in, so first-encounter order is used.) -/
def monthlyCategoryRows (df : List Transaction) : List (Nat × String × String × Rat) :=
  (uniqueFirst (df.map fun t => (t.date.month, t.category, t.txType))).map fun k =>
    (k.1, k.2.1, k.2.2,
      ((df.filter fun t =>
        decide ((t.date.month, t.category, t.txType) = k)).map Transaction.amount).sum)

/-- `monthly_category[monthly_category['category'] == category]`. -/
def catGroupRows (df : List Transaction) (c : String) : List (Nat × String × String × Rat) :=
  (monthlyCategoryRows df).filter fun r => r.2.1 == c

/-- Ordinary-least-squares slope of `LinearRegression().fit(X, y)` for the
1-dimensional predictor, in closed form.  The denominator is nonzero
whenever at least two distinct `x` values occur, which holds on every path
where the code fits a model. -/
def fitSlope (pts : List (Rat × Rat)) : Rat :=
  let n : Rat := pts.length
  let sx := (pts.map Prod.fst).sum
  let sy := (pts.map Prod.snd).sum
  let sxx := (pts.map fun p => p.1 * p.1).sum
  let sxy := (pts.map fun p => p.1 * p.2).sum
  (n * sxy - sx * sy) / (n * sxx - sx * sx)

/-- Ordinary-least-squares intercept. -/
def fitIntercept (pts : List (Rat × Rat)) : Rat :=
  ((pts.map Prod.snd).sum - fitSlope pts * (pts.map Prod.fst).sum) / pts.length

/-- The body of the per-category projection loop: fit the line on the
category's `(month_num, amount)` group rows, predict months 1–12, clamp at
0 with `np.maximum(predictions, 0)`, and assemble the record. -/
def categoryProjection (df : List Transaction) (c : String) : Projection :=
  let cat_data := catGroupRows df c
  let pts := cat_data.map fun r => ((r.1 : Rat), r.2.2.2)
  let slope := fitSlope pts
  let intercept := fitIntercept pts
  let predictions :=
    (List.range 12).map fun i => max (intercept + slope * ((i + 1 : Nat) : Rat)) 0
  { monthly_predictions := predictions
    annual_total := predictions.sum
    average_monthly := predictions.sum / 12
    trend := if 0 < slope then "crescente" else "decrescente"
    confidence := min ((cat_data.length : Rat) / 12) 1 }

/-- `FinanceAnalytics.predict_annual_projection`, as a function of the
transactions of the trailing-365-day window (`db.get_transactions(start,
end)` hands exactly that window to it).  `none` models the `return None`
for fewer than 3 transactions; the projections dict is an association
list keyed by category. -/
def predictAnnualProjection (df : List Transaction) : Option (List (String × Projection)) :=
  if df.isEmpty || df.length < 3 then none
  else
    let rows := monthlyCategoryRows df
    let cats := uniqueFirst (rows.map fun r => r.2.1)
    some <|
      (cats.filter fun c => decide (3 ≤ (catGroupRows df c).length)).map fun c =>
        (c, categoryProjection df c)

/-! ## `detect_anomalies` (analytics.py) -/

/-- A flagged transaction.  `zSq` is the square of the z-score the Python
code computes (the z-score itself is `|amount - mean| / std`, whose square
avoids the irrational square root while determining every comparison the
code performs). -/
structure Anomaly where
  id : Nat
  date : Date
  description : String
  amount : Rat
  category : String
  zSq : Rat
  severity : String
deriving DecidableEq, Repr

/-- `cat_data['amount'].std()`: pandas' default is the *sample* variance
(Bessel's correction, divisor `n - 1`); this is its square, the sample
variance. -/
def sampleVar (l : List Rat) : Rat :=
  let n : Rat := l.length
  let m := l.sum / n
  (l.map fun x => (x - m) * (x - m)).sum / (n - 1)

/-- The square of the z-score: `((x - mean) / std)^2` when `std > 0`
(equivalently, when the variance `v > 0`), else the defined fallback 0. -/
def zSqOf (mean v x : Rat) : Rat :=
  if 0 < v then (x - mean) * (x - mean) / v else 0

/-- Decides `Real.sqrt q > t` for `q ≥ 0` on squares: true iff `t < 0` or
`t^2 < q`.  This is how the code's `z_score > threshold` and `z_score > 3`
read on the squared representation. -/
def sqrtGT (q t : Rat) : Bool := decide (t < 0) || decide (t * t < q)

/-- The `anomalies` list built by the detection loop, in encounter order
(categories in first-appearance order, transactions in dataframe order),
before the final `sorted(...)`. -/
def detectAnomaliesUnsorted (threshold : Rat) (df : List Transaction) : List Anomaly :=
  if df.isEmpty then []
  else
    (uniqueFirst (df.map Transaction.category)).flatMap fun c =>
      let cat_data := df.filter fun t => t.category == c
      if cat_data.length < 5 then []
      else
        let amounts := cat_data.map Transaction.amount
        let mean := amounts.sum / amounts.length
        let v := sampleVar amounts
        (cat_data.filter fun t => sqrtGT (zSqOf mean v t.amount) threshold).map fun t =>
          { id := t.id
            date := t.date
            description := t.description
            amount := t.amount
            category := t.category
            zSq := zSqOf mean v t.amount
            severity := if sqrtGT (zSqOf mean v t.amount) 3 then "alta" else "média" }

/-- `sorted(anomalies, key=lambda x: x['z_score'], reverse=True)` as a
stable-sort comparison (descending in the z-score, equivalently in its
square; CPython's `sorted` with `reverse=True` is stable). -/
def anomalyGE (a b : Anomaly) : Prop := b.zSq ≤ a.zSq

instance : DecidableRel anomalyGE := fun a b => inferInstanceAs (Decidable (b.zSq ≤ a.zSq))

instance : IsTotal Anomaly anomalyGE := ⟨fun a b => le_total b.zSq a.zSq⟩

instance : IsTrans Anomaly anomalyGE := ⟨fun _ _ _ h₁ h₂ => le_trans h₂ h₁⟩

/-- `FinanceAnalytics.detect_anomalies`, as a function of the transactions
of the trailing-180-day window. -/
def detectAnomalies (threshold : Rat) (df : List Transaction) : List Anomaly :=
  (detectAnomaliesUnsorted threshold df).insertionSort anomalyGE

/-! ## Specification-side definitions

For comparing the projection's actual skip condition and confidence with
the specification's description of them. -/

/-- The number of distinct calendar months (distinct `(year, month)`
pairs) among a category's transactions — the quantity the specification's
"distinct months of data" refers to. -/
def distinctCalendarMonths (df : List Transaction) (cat : String) : Nat :=
  (uniqueFirst ((df.filter fun t => t.category == cat).map fun t =>
    (t.date.year, t.date.month))).length

/-- The confidence value the specification describes:
`min(distinct months of data / 12, 1.0)`. -/
def specConfidence (df : List Transaction) (cat : String) : Rat :=
  min ((distinctCalendarMonths df cat : Rat) / 12) 1

/-! ## Concrete data for witnesses and counterexamples -/

/-- A single-category window with both transaction types: category `X` has
only two distinct calendar months (2025-01 and 2025-02), yet three
`(month, category, type)` aggregation groups. -/
def mixedTypeTxns : List Transaction :=
  [⟨1, ⟨2025, 1, 5⟩, "aluguel", 10, "X", "despesa"⟩,
   ⟨2, ⟨2025, 1, 6⟩, "venda", 20, "X", "receita"⟩,
   ⟨3, ⟨2025, 2, 5⟩, "aluguel", 30, "X", "despesa"⟩]

/-- Three expense transactions of one category in three months. -/
def threeMonthTxns : List Transaction :=
  [⟨1, ⟨2025, 1, 3⟩, "aluguel", 10, "Moradia", "despesa"⟩,
   ⟨2, ⟨2025, 2, 3⟩, "aluguel", 20, "Moradia", "despesa"⟩,
   ⟨3, ⟨2025, 3, 3⟩, "aluguel", 30, "Moradia", "despesa"⟩]

/-- The projection `predict_annual_projection` computes for
`threeMonthTxns`: the fitted line is `amount = 10 * month`. -/
def threeMonthProj : Projection :=
  ⟨[10, 20, 30, 40, 50, 60, 70, 80, 90, 100, 110, 120], 780, 65, "crescente", (1 : Rat) / 4⟩

/-- The full projection output for `threeMonthTxns`. -/
def threeMonthProjList : List (String × Projection) := [("Moradia", threeMonthProj)]

/-- Six transactions of one category, five equal amounts and one outlier.
Mean 11, sample variance `(5 * 100 + 2500) / 5 = 600`, and the outlier's
squared z-score is `2500 / 600 = 25/6 > 4`, so it is flagged at
threshold 2. -/
def outlierTxns : List Transaction :=
  [⟨1, ⟨2025, 5, 1⟩, "conta", 1, "Luz", "despesa"⟩,
   ⟨2, ⟨2025, 5, 2⟩, "conta", 1, "Luz", "despesa"⟩,
   ⟨3, ⟨2025, 6, 1⟩, "conta", 1, "Luz", "despesa"⟩,
   ⟨4, ⟨2025, 7, 1⟩, "conta", 1, "Luz", "despesa"⟩,
   ⟨5, ⟨2025, 8, 1⟩, "conta", 1, "Luz", "despesa"⟩,
   ⟨6, ⟨2025, 9, 1⟩, "conta", 61, "Luz", "despesa"⟩]

/-- The anomaly `detect_anomalies 2` flags in `outlierTxns`. -/
def outlierAnomaly : Anomaly :=
  ⟨6, ⟨2025, 9, 1⟩, "conta", 61, "Luz", (25 : Rat) / 6, "média"⟩

/-- Five transactions of one category, all with the same amount. -/
def constantTxns : List Transaction :=
  [⟨1, ⟨2025, 5, 1⟩, "conta", 7, "Agua", "despesa"⟩,
   ⟨2, ⟨2025, 6, 1⟩, "conta", 7, "Agua", "despesa"⟩,
   ⟨3, ⟨2025, 7, 1⟩, "conta", 7, "Agua", "despesa"⟩,
   ⟨4, ⟨2025, 8, 1⟩, "conta", 7, "Agua", "despesa"⟩,
   ⟨5, ⟨2025, 9, 1⟩, "conta", 7, "Agua", "despesa"⟩]

/-- Two expense transactions in 2025-09, distinct categories. -/
def twoExpenseTxns : List Transaction :=
  [⟨1, ⟨2025, 9, 3⟩, "mercado", 50, "Alimentacao", "despesa"⟩,
   ⟨2, ⟨2025, 9, 10⟩, "onibus", 30, "Transporte", "despesa"⟩]

/-- The insight bundle for `twoExpenseTxns` in 2025-09. -/
def twoExpenseInsights : Insights :=
  ⟨0, 80, -80, 0,
   [⟨"Alimentacao", "despesa", 50, 1⟩, ⟨"Transporte", "despesa", 30, 1⟩],
   [("Alimentacao", 50), ("Transporte", 30)]⟩

/-- A single income summary row. -/
def incomeOnlyRows : List SummaryRow := [⟨"Salário CLT", "receita", 100, 1⟩]

/-- The insight bundle `calculate_category_insights` builds from
`incomeOnlyRows`. -/
def incomeOnlyInsights : Insights := ⟨100, 0, 100, 100, [], []⟩

/-! ## General lemmas about the embedding's building blocks -/

theorem mem_uniqueFirstAux {α : Type} [DecidableEq α] {x : α} :
    ∀ {l seen : List α}, x ∈ uniqueFirstAux seen l ↔ x ∈ l ∧ x ∉ seen
  | [], seen => by simp [uniqueFirstAux]
  | a :: rest, seen => by
    rw [uniqueFirstAux]
    split
    · rw [mem_uniqueFirstAux]
      constructor
      · exact fun ⟨h1, h2⟩ => ⟨List.mem_cons_of_mem _ h1, h2⟩
      · rintro ⟨h1, h2⟩
        rcases List.mem_cons.mp h1 with rfl | h1
        · exact absurd ‹x ∈ seen› h2
        · exact ⟨h1, h2⟩
    · simp only [List.mem_cons, mem_uniqueFirstAux]
      constructor
      · rintro (rfl | ⟨h1, h2⟩)
        · exact ⟨Or.inl rfl, ‹¬ x ∈ seen›⟩
        · exact ⟨Or.inr h1, fun hx => h2 (Or.inr hx)⟩
      · rintro ⟨rfl | h1, h2⟩
        · exact Or.inl rfl
        · by_cases hxa : x = a
          · exact Or.inl hxa
          · exact Or.inr ⟨h1, by simp [hxa, h2]⟩

theorem mem_uniqueFirst {α : Type} [DecidableEq α] {x : α} {l : List α} :
    x ∈ uniqueFirst l ↔ x ∈ l := by
  rw [uniqueFirst, mem_uniqueFirstAux]
  simp

theorem nodup_uniqueFirstAux {α : Type} [DecidableEq α] :
    ∀ (l seen : List α), (uniqueFirstAux seen l).Nodup
  | [], seen => by simp [uniqueFirstAux]
  | a :: rest, seen => by
    rw [uniqueFirstAux]
    split
    · exact nodup_uniqueFirstAux rest seen
    · refine List.nodup_cons.mpr ⟨?_, nodup_uniqueFirstAux rest (a :: seen)⟩
      intro hmem
      exact (mem_uniqueFirstAux.mp hmem).2 (List.mem_cons_self a seen)

theorem nodup_uniqueFirst {α : Type} [DecidableEq α] (l : List α) :
    (uniqueFirst l).Nodup :=
  nodup_uniqueFirstAux l []

theorem dictInsert_of_forall_ne {l : List (String × Rat)} {k : String} (v : Rat)
    (h : ∀ p ∈ l, p.1 ≠ k) : dictInsert l k v = l ++ [(k, v)] := by
  induction l with
  | nil => rfl
  | cons p rest ih =>
    rw [dictInsert]
    rw [if_neg (h p (List.mem_cons_self p rest))]
    rw [ih fun q hq => h q (List.mem_cons_of_mem p hq)]
    simp

theorem toDict_go_eq_map (rows : List SummaryRow) :
    ∀ (acc : List (String × Rat)),
      (rows.map SummaryRow.category).Nodup →
      (∀ r ∈ rows, ∀ p ∈ acc, p.1 ≠ r.category) →
      rows.foldl (fun acc r => dictInsert acc r.category r.total) acc
        = acc ++ rows.map fun r => (r.category, r.total) := by
  induction rows with
  | nil => intro acc _ _; simp
  | cons r rest ih =>
    intro acc hnd hdisj
    rw [List.foldl_cons]
    rw [dictInsert_of_forall_ne r.total (hdisj r (List.mem_cons_self r rest))]
    rw [List.map_cons, List.nodup_cons] at hnd
    rw [ih (acc ++ [(r.category, r.total)]) hnd.2 ?_]
    · simp
    · intro r' hr' p hp
      rcases List.mem_append.mp hp with hp | hp
      · exact hdisj r' (List.mem_cons_of_mem r hr') p hp
      · have hpr : p = (r.category, r.total) := List.mem_singleton.mp hp
        subst hpr
        intro hcontr
        have hcontr' : r.category = r'.category := hcontr
        have : r.category ∈ List.map SummaryRow.category rest := by
          rw [hcontr']
          exact List.mem_map_of_mem SummaryRow.category hr'
        exact hnd.1 this

theorem toDict_eq_map {rows : List SummaryRow}
    (h : (rows.map SummaryRow.category).Nodup) :
    toDict rows = rows.map fun r => (r.category, r.total) := by
  rw [toDict, toDict_go_eq_map rows [] h (by simp)]
  simp

theorem calculateCategoryInsights_none_iff (md : List SummaryRow) :
    calculateCategoryInsights md = none ↔ md = [] := by
  rw [calculateCategoryInsights]
  split
  · simpa [List.isEmpty_iff] using ‹md.isEmpty = true›
  · simp only [reduceCtorEq, false_iff]
    intro hnil
    subst hnil
    simp at *

/-! ## Claim theorems: `calculate_category_insights` -/

/-- C4: for every input month, `savings_rate` equals
`(total_income - total_expenses) / total_income * 100` when
`total_income > 0` and `0` when `total_income = 0`, whatever the expenses
are.  The embedding is a total function — the guard replaces the division
by the fallback `0`, so no division error can arise. -/
theorem savings_rate_division_guard (md : List SummaryRow) (i : Insights)
    (h : calculateCategoryInsights md = some i) :
    (0 < i.total_income →
      i.savings_rate = (i.total_income - i.total_expenses) / i.total_income * 100) ∧
    (i.total_income = 0 → i.savings_rate = 0) := by
  rw [calculateCategoryInsights] at h
  split at h
  · exact absurd h (by simp)
  · rw [Option.some_inj] at h
    subst h
    dsimp only
    constructor
    · intro hpos
      rw [if_pos hpos]
    · intro hzero
      rw [if_neg]
      rw [hzero]
      exact lt_irrefl 0

/-- Witness for C4: a concrete month with a single income row. -/
theorem savings_rate_division_guard_witness :
    (0 < incomeOnlyInsights.total_income →
      incomeOnlyInsights.savings_rate =
        (incomeOnlyInsights.total_income - incomeOnlyInsights.total_expenses) /
          incomeOnlyInsights.total_income * 100) ∧
    (incomeOnlyInsights.total_income = 0 → incomeOnlyInsights.savings_rate = 0) :=
  savings_rate_division_guard incomeOnlyRows incomeOnlyInsights (by
    norm_num +decide [calculateCategoryInsights, incomeOnlyRows, incomeOnlyInsights, toDict])

/-! ## Claim theorems: `generate_financial_score` -/

theorem savingsFactor_points (s : Rat) :
    factorPoints (savingsFactor s).2 = (savingsFactor s).1 ∧
    0 ≤ (savingsFactor s).1 ∧ (savingsFactor s).1 ≤ 40 := by
  rw [savingsFactor]
  split_ifs <;> exact ⟨rfl, by decide, by decide⟩

theorem diversificationFactor_points (n : Nat) :
    factorPoints (diversificationFactor n).2 = (diversificationFactor n).1 ∧
    0 ≤ (diversificationFactor n).1 ∧ (diversificationFactor n).1 ≤ 30 := by
  rw [diversificationFactor]
  split_ifs <;> exact ⟨rfl, by decide, by decide⟩

theorem consistencyFactor_points (n : Nat) :
    factorPoints (consistencyFactor n).2 = (consistencyFactor n).1 ∧
    0 ≤ (consistencyFactor n).1 ∧ (consistencyFactor n).1 ≤ 30 := by
  rw [consistencyFactor]
  split_ifs <;> exact ⟨rfl, by decide, by decide⟩

theorem generateFinancialScore_of_ne_nil (md : List SummaryRow) (h : md ≠ []) :
    ∃ i, calculateCategoryInsights md = some i ∧
      generateFinancialScore md =
        (min ((savingsFactor i.savings_rate).1 +
              (diversificationFactor i.expense_distribution.length).1 +
              (consistencyFactor (md.map SummaryRow.count).sum).1) 100,
         ScoreFactors.factors
           [(savingsFactor i.savings_rate).2,
            (diversificationFactor i.expense_distribution.length).2,
            (consistencyFactor (md.map SummaryRow.count).sum).2]) := by
  cases hins : calculateCategoryInsights md with
  | none => exact absurd ((calculateCategoryInsights_none_iff md).mp hins) h
  | some i => exact ⟨i, rfl, by rw [generateFinancialScore, hins]⟩

/-- C3: whenever data is found, the score is `min` of the three factor
points and `100`, the points attached to the emitted factor strings sum to
the reported score, and the score lies in `[0, 100]`. -/
theorem financial_score_consistent (md : List SummaryRow) (h : md ≠ []) :
    ∃ fs : List String,
      (generateFinancialScore md).2 = ScoreFactors.factors fs ∧
      (generateFinancialScore md).1 = min ((fs.map factorPoints).sum) 100 ∧
      (fs.map factorPoints).sum = (generateFinancialScore md).1 ∧
      0 ≤ (generateFinancialScore md).1 ∧ (generateFinancialScore md).1 ≤ 100 := by
  obtain ⟨i, hins, hgfs⟩ := generateFinancialScore_of_ne_nil md h
  obtain ⟨he1, hb1, ht1⟩ := savingsFactor_points i.savings_rate
  obtain ⟨he2, hb2, ht2⟩ := diversificationFactor_points i.expense_distribution.length
  obtain ⟨he3, hb3, ht3⟩ := consistencyFactor_points (md.map SummaryRow.count).sum
  refine ⟨[(savingsFactor i.savings_rate).2,
           (diversificationFactor i.expense_distribution.length).2,
           (consistencyFactor (md.map SummaryRow.count).sum).2], ?_, ?_, ?_, ?_, ?_⟩
  · rw [hgfs]
  · rw [hgfs]
    simp only [List.map_cons, List.map_nil, List.sum_cons, List.sum_nil, he1, he2, he3]
    ring_nf
  · rw [hgfs]
    simp only [List.map_cons, List.map_nil, List.sum_cons, List.sum_nil, he1, he2, he3]
    rw [min_eq_left (by linarith)]
    ring
  · rw [hgfs]
    exact le_min (by linarith) (by norm_num)
  · rw [hgfs]
    exact min_le_right _ _

/-- Witness for C3 at a concrete non-empty month. -/
theorem financial_score_consistent_witness :
    incomeOnlyRows ≠ [] ∧
    ∃ fs : List String,
      (generateFinancialScore incomeOnlyRows).2 = ScoreFactors.factors fs ∧
      (generateFinancialScore incomeOnlyRows).1 = min ((fs.map factorPoints).sum) 100 ∧
      (fs.map factorPoints).sum = (generateFinancialScore incomeOnlyRows).1 ∧
      0 ≤ (generateFinancialScore incomeOnlyRows).1 ∧
      (generateFinancialScore incomeOnlyRows).1 ≤ 100 :=
  ⟨by simp [incomeOnlyRows],
   financial_score_consistent incomeOnlyRows (by simp [incomeOnlyRows])⟩

/-- C9: with no data for the month the second component is the bare string
`"Dados insuficientes"`, while in the data-present branch it is a list of
factor strings — two different result shapes. -/
theorem financial_score_result_shapes (md : List SummaryRow) :
    (md = [] → generateFinancialScore md = (0, ScoreFactors.msg "Dados insuficientes")) ∧
    (md ≠ [] → ∃ fs, (generateFinancialScore md).2 = ScoreFactors.factors fs) := by
  constructor
  · rintro rfl
    rfl
  · intro h
    obtain ⟨i, hins, hgfs⟩ := generateFinancialScore_of_ne_nil md h
    exact ⟨_, by rw [hgfs]⟩

theorem summaryRowsUnsorted_pairs (txns : List Transaction) :
    (summaryRowsUnsorted txns).map (fun r => (r.category, r.txType)) = summaryKeys txns := by
  rw [summaryRowsUnsorted, List.map_map]
  have hcomp : ((fun r : SummaryRow => (r.category, r.txType)) ∘ fun k : String × String =>
      ({ category := k.1, txType := k.2,
         total := ((txns.filter fun t => t.category == k.1 && t.txType == k.2).map
           Transaction.amount).sum,
         count := (txns.filter fun t => t.category == k.1 && t.txType == k.2).length }
        : SummaryRow)) = id := funext fun k => rfl
  rw [hcomp, List.map_id]

theorem getMonthlySummary_pairs_nodup (txns : List Transaction) (year month : Nat) :
    ((getMonthlySummary txns year month).map fun r => (r.category, r.txType)).Nodup := by
  rw [getMonthlySummary]
  have hperm := (List.perm_insertionSort rowGE
    (summaryRowsUnsorted (txns.filter fun t => t.date.year == year && t.date.month == month))).map
    fun r => (r.category, r.txType)
  rw [hperm.nodup_iff, summaryRowsUnsorted_pairs]
  exact nodup_uniqueFirst _

theorem getMonthlySummary_expense_cats_nodup (txns : List Transaction) (year month : Nat) :
    (((getMonthlySummary txns year month).filter fun r => r.txType == "despesa").map
      SummaryRow.category).Nodup := by
  have hpairs : (((getMonthlySummary txns year month).filter fun r => r.txType == "despesa").map
      fun r => (r.category, r.txType)).Nodup :=
    ((List.filter_sublist _).map _).nodup (getMonthlySummary_pairs_nodup txns year month)
  have hcomp : ((getMonthlySummary txns year month).filter fun r => r.txType == "despesa").map
      SummaryRow.category
      = (((getMonthlySummary txns year month).filter fun r => r.txType == "despesa").map
          fun r => (r.category, r.txType)).map Prod.fst := by
    rw [List.map_map]
    rfl
  rw [hcomp]
  refine hpairs.map_on ?_
  rintro ⟨x1, x2⟩ hx ⟨y1, y2⟩ hy hxy
  obtain ⟨rx, hrx, hrx2⟩ := List.mem_map.mp hx
  obtain ⟨ry, hry, hry2⟩ := List.mem_map.mp hy
  injection hrx2 with hrx21 hrx22
  injection hry2 with hry21 hry22
  have hx2 : x2 = "despesa" := by
    rw [← hrx22]
    simpa using List.of_mem_filter hrx
  have hy2 : y2 = "despesa" := by
    rw [← hry22]
    simpa using List.of_mem_filter hry
  have hxy1 : x1 = y1 := hxy
  rw [hxy1, hx2, hy2]

/-- C2: for every non-empty month, `top_expense_categories` has at most 5
rows, is sorted descending by `total`, and its `(category, total)` pairs
are a sublist of `expense_distribution`'s entries — in particular rows
with equal totals keep the distribution's (original row) order. -/
theorem top_expense_categories_spec (txns : List Transaction) (year month : Nat) (i : Insights)
    (h : calculateCategoryInsights (getMonthlySummary txns year month) = some i) :
    i.top_expense_categories.length ≤ 5 ∧
    i.top_expense_categories.Pairwise (fun r₁ r₂ => r₂.total ≤ r₁.total) ∧
    (i.top_expense_categories.map fun r => (r.category, r.total)).Sublist
      i.expense_distribution := by
  rw [calculateCategoryInsights] at h
  split at h
  · exact absurd h (by simp)
  · rw [Option.some_inj] at h
    subst h
    dsimp only
    have hsorted : (getMonthlySummary txns year month).Pairwise rowGE :=
      List.sorted_insertionSort rowGE _
    have hexp_sorted :
        ((getMonthlySummary txns year month).filter fun r => r.txType == "despesa").Pairwise
          rowGE :=
      hsorted.filter _
    have htop :
        (((getMonthlySummary txns year month).filter fun r =>
          r.txType == "despesa").insertionSort rowGE)
          = (getMonthlySummary txns year month).filter fun r => r.txType == "despesa" :=
      List.Sorted.insertionSort_eq hexp_sorted
    rw [htop]
    refine ⟨List.length_take_le _ _, ?_, ?_⟩
    · exact List.Pairwise.sublist (List.take_sublist _ _) hexp_sorted
    · rw [toDict_eq_map (getMonthlySummary_expense_cats_nodup txns year month)]
      exact (List.take_sublist 5 _).map _

/-- Witness for C2: a month with two expense rows. -/
theorem top_expense_categories_spec_witness :
    calculateCategoryInsights (getMonthlySummary twoExpenseTxns 2025 9)
      = some twoExpenseInsights ∧
    (twoExpenseInsights.top_expense_categories.length ≤ 5 ∧
     twoExpenseInsights.top_expense_categories.Pairwise (fun r₁ r₂ => r₂.total ≤ r₁.total) ∧
     (twoExpenseInsights.top_expense_categories.map fun r => (r.category, r.total)).Sublist
       twoExpenseInsights.expense_distribution) := by
  have hEq : calculateCategoryInsights (getMonthlySummary twoExpenseTxns 2025 9)
      = some twoExpenseInsights := by
    norm_num +decide [calculateCategoryInsights, getMonthlySummary, summaryRowsUnsorted,
      summaryKeys, uniqueFirst, uniqueFirstAux, toDict, dictInsert, rowGE,
      twoExpenseTxns, twoExpenseInsights, List.filter_cons, List.filter_nil]
  exact ⟨hEq, top_expense_categories_spec twoExpenseTxns 2025 9 twoExpenseInsights hEq⟩

/-! ## Claim theorems: `predict_annual_projection` -/

theorem mem_predictAnnualProjection {df : List Transaction} {ps : List (String × Projection)}
    {c : String} {p : Projection} (h : predictAnnualProjection df = some ps)
    (hm : (c, p) ∈ ps) :
    p = categoryProjection df c ∧ 3 ≤ (catGroupRows df c).length := by
  rw [predictAnnualProjection] at h
  split at h
  · exact absurd h (by simp)
  · rw [Option.some_inj] at h
    subst h
    obtain ⟨c', hc', heq⟩ := List.mem_map.mp hm
    injection heq with heq1 heq2
    subst heq1
    subst heq2
    have hcond := List.of_mem_filter hc'
    exact ⟨rfl, of_decide_eq_true hcond⟩

/-- C1 (amended): a category is a key of the projection map exactly when it
has at least 3 `(month_num, category, type)` aggregation group rows in the
window — the count the code's `len(cat_data) >= 3` tests, which is not the
number of distinct calendar months. -/
theorem projection_keys_iff_group_count (df : List Transaction)
    (ps : List (String × Projection)) (c : String)
    (h : predictAnnualProjection df = some ps) :
    c ∈ ps.map Prod.fst ↔ 3 ≤ (catGroupRows df c).length := by
  rw [predictAnnualProjection] at h
  split at h
  · exact absurd h (by simp)
  · rw [Option.some_inj] at h
    subst h
    rw [List.map_map]
    have hid : (Prod.fst ∘ fun c => (c, categoryProjection df c)) = id := funext fun c => rfl
    rw [hid, List.map_id, List.mem_filter]
    constructor
    · rintro ⟨-, hcond⟩
      exact of_decide_eq_true hcond
    · intro hge
      refine ⟨?_, decide_eq_true hge⟩
      rw [mem_uniqueFirst]
      have hne : catGroupRows df c ≠ [] := by
        intro hnil
        rw [hnil] at hge
        simp at hge
      obtain ⟨r, hr⟩ := List.exists_mem_of_ne_nil _ hne
      have hr1 : r ∈ monthlyCategoryRows df := List.mem_of_mem_filter hr
      have hr2 : r.2.1 = c := by simpa using List.of_mem_filter hr
      rw [← hr2]
      exact List.mem_map_of_mem (fun r => r.2.1) hr1

/-- Witness for the amended C1 at a concrete window. -/
theorem projection_keys_iff_group_count_witness :
    predictAnnualProjection threeMonthTxns = some threeMonthProjList ∧
    ("Moradia" ∈ threeMonthProjList.map Prod.fst ↔
      3 ≤ (catGroupRows threeMonthTxns "Moradia").length) := by
  have hEq : predictAnnualProjection threeMonthTxns = some threeMonthProjList := by
    norm_num +decide [predictAnnualProjection, categoryProjection, monthlyCategoryRows,
      catGroupRows, uniqueFirst, uniqueFirstAux, fitSlope, fitIntercept,
      threeMonthTxns, threeMonthProjList, threeMonthProj, List.range_succ, max_def]
  exact ⟨hEq, projection_keys_iff_group_count threeMonthTxns threeMonthProjList "Moradia" hEq⟩

/-- Counterexample to C1 as stated: in `mixedTypeTxns` category `X` has
only 2 distinct calendar months in the window, yet it appears as a key of
the projection map (its two types give 3 aggregation groups). -/
theorem projection_distinct_months_cex :
    distinctCalendarMonths mixedTypeTxns "X" < 3 ∧
    "X" ∈ ((predictAnnualProjection mixedTypeTxns).getD []).map Prod.fst := by
  decide

/-- C5: every projected category's 12 monthly predictions are clamped at 0
and `annual_total` is the sum of the clamped predictions. -/
theorem projection_predictions_nonneg (df : List Transaction)
    (ps : List (String × Projection)) (c : String) (p : Projection)
    (h : predictAnnualProjection df = some ps) (hm : (c, p) ∈ ps) :
    p.monthly_predictions.length = 12 ∧
    (∀ x ∈ p.monthly_predictions, 0 ≤ x) ∧
    p.annual_total = p.monthly_predictions.sum := by
  obtain ⟨hp, -⟩ := mem_predictAnnualProjection h hm
  subst hp
  rw [categoryProjection]
  dsimp only
  refine ⟨by simp, ?_, rfl⟩
  intro x hx
  obtain ⟨i, -, rfl⟩ := List.mem_map.mp hx
  exact le_max_right _ _

/-- Witness for C5 at a concrete window. -/
theorem projection_predictions_nonneg_witness :
    predictAnnualProjection threeMonthTxns = some threeMonthProjList ∧
    ("Moradia", threeMonthProj) ∈ threeMonthProjList ∧
    (threeMonthProj.monthly_predictions.length = 12 ∧
     (∀ x ∈ threeMonthProj.monthly_predictions, 0 ≤ x) ∧
     threeMonthProj.annual_total = threeMonthProj.monthly_predictions.sum) := by
  have hEq : predictAnnualProjection threeMonthTxns = some threeMonthProjList := by
    norm_num +decide [predictAnnualProjection, categoryProjection, monthlyCategoryRows,
      catGroupRows, uniqueFirst, uniqueFirstAux, fitSlope, fitIntercept,
      threeMonthTxns, threeMonthProjList, threeMonthProj, List.range_succ, max_def]
  have hm : ("Moradia", threeMonthProj) ∈ threeMonthProjList := by
    simp [threeMonthProjList]
  exact ⟨hEq, hm,
    projection_predictions_nonneg threeMonthTxns threeMonthProjList "Moradia" threeMonthProj
      hEq hm⟩

/-- C8 (amended): the reported confidence is
`min(number of (month_num, category, type) group rows / 12, 1)` — the
count `len(cat_data)` of aggregation groups, not of distinct calendar
months — and it lies in `[0, 1]`. -/
theorem projection_confidence_spec (df : List Transaction)
    (ps : List (String × Projection)) (c : String) (p : Projection)
    (h : predictAnnualProjection df = some ps) (hm : (c, p) ∈ ps) :
    p.confidence = min (((catGroupRows df c).length : Rat) / 12) 1 ∧
    0 ≤ p.confidence ∧ p.confidence ≤ 1 := by
  obtain ⟨hp, -⟩ := mem_predictAnnualProjection h hm
  subst hp
  rw [categoryProjection]
  dsimp only
  refine ⟨rfl, le_min (by positivity) zero_le_one, min_le_right _ _⟩

/-- Witness for the amended C8 at a concrete window. -/
theorem projection_confidence_spec_witness :
    predictAnnualProjection threeMonthTxns = some threeMonthProjList ∧
    ("Moradia", threeMonthProj) ∈ threeMonthProjList ∧
    (threeMonthProj.confidence
        = min (((catGroupRows threeMonthTxns "Moradia").length : Rat) / 12) 1 ∧
     0 ≤ threeMonthProj.confidence ∧ threeMonthProj.confidence ≤ 1) := by
  have hEq : predictAnnualProjection threeMonthTxns = some threeMonthProjList := by
    norm_num +decide [predictAnnualProjection, categoryProjection, monthlyCategoryRows,
      catGroupRows, uniqueFirst, uniqueFirstAux, fitSlope, fitIntercept,
      threeMonthTxns, threeMonthProjList, threeMonthProj, List.range_succ, max_def]
  have hm : ("Moradia", threeMonthProj) ∈ threeMonthProjList := by
    simp [threeMonthProjList]
  exact ⟨hEq, hm,
    projection_confidence_spec threeMonthTxns threeMonthProjList "Moradia" threeMonthProj
      hEq hm⟩

/-- Counterexample to C8 as stated: in `mixedTypeTxns` category `X` has 2
distinct calendar months, so the claimed confidence would be
`min(2/12, 1) = 1/6`, but the code reports `3/12 = 1/4` (it counts the 3
`(month, type)` groups). -/
theorem projection_confidence_cex :
    (((predictAnnualProjection mixedTypeTxns).getD []).lookup "X").map Projection.confidence
      = some ((1 : Rat) / 4) ∧
    specConfidence mixedTypeTxns "X" = (1 : Rat) / 6 ∧
    ((1 : Rat) / 4) ≠ ((1 : Rat) / 6) := by
  refine ⟨?_, ?_, by norm_num⟩
  · norm_num +decide [predictAnnualProjection, categoryProjection, monthlyCategoryRows,
      catGroupRows, uniqueFirst, uniqueFirstAux, fitSlope, fitIntercept,
      mixedTypeTxns, List.range_succ, max_def, List.lookup, min_def]
  · norm_num +decide [specConfidence, distinctCalendarMonths, uniqueFirst, uniqueFirstAux,
      mixedTypeTxns, min_def]

/-! ## Claim theorems: `detect_anomalies` -/

theorem list_sum_const {l : List Rat} {k : Rat} (h : ∀ x ∈ l, x = k) :
    l.sum = (l.length : Rat) * k := by
  induction l with
  | nil => simp
  | cons x xs ih =>
    rw [List.sum_cons, ih fun y hy => h y (List.mem_cons_of_mem x hy),
      h x (List.mem_cons_self x xs), List.length_cons]
    push_cast
    ring

/-- The sample variance of a constant list is 0. -/
theorem sampleVar_const {l : List Rat} {k : Rat} (hl : l ≠ []) (h : ∀ x ∈ l, x = k) :
    sampleVar l = 0 := by
  have hnz : ((l.length : Nat) : Rat) ≠ 0 :=
    Nat.cast_ne_zero.mpr fun h0 => hl (List.length_eq_zero.mp h0)
  have hmean : l.sum / ((l.length : Nat) : Rat) = k := by
    rw [list_sum_const h]
    exact mul_div_cancel_left₀ k hnz
  have hmap : (l.map fun x =>
      (x - l.sum / ((l.length : Nat) : Rat)) * (x - l.sum / ((l.length : Nat) : Rat))).sum = 0 := by
    apply List.sum_eq_zero
    intro y hy
    obtain ⟨x, hx, rfl⟩ := List.mem_map.mp hy
    rw [h x hx, hmean]
    ring
  rw [sampleVar]
  rw [hmap, zero_div]

/-- Decomposition of membership in the anomaly list: every anomaly comes
from a transaction of a category with at least 5 transactions, carries
that transaction's fields, and passed the threshold test. -/
theorem mem_detectAnomalies {threshold : Rat} {df : List Transaction} {a : Anomaly}
    (h : a ∈ detectAnomalies threshold df) :
    ∃ t ∈ df.filter fun x => x.category == a.category,
      a.category = t.category ∧
      ¬ (df.filter fun x => x.category == t.category).length < 5 ∧
      (sqrtGT (zSqOf
        (((df.filter fun x => x.category == t.category).map Transaction.amount).sum /
          ((df.filter fun x => x.category == t.category).map Transaction.amount).length)
        (sampleVar ((df.filter fun x => x.category == t.category).map Transaction.amount))
        t.amount) threshold) = true := by
  rw [detectAnomalies, List.mem_insertionSort, detectAnomaliesUnsorted] at h
  split at h
  · exact absurd h (by simp)
  · rw [List.mem_flatMap] at h
    obtain ⟨c, -, hbody⟩ := h
    dsimp only at hbody
    split at hbody
    · exact absurd hbody (by simp)
    · rename_i h5
      obtain ⟨t, ht, rfl⟩ := List.mem_map.mp hbody
      have ht' : t ∈ df.filter fun x => x.category == c := List.mem_of_mem_filter ht
      have htc : t.category = c := by simpa using List.of_mem_filter ht'
      have hcond := List.of_mem_filter ht
      subst htc
      exact ⟨t, ht', rfl, h5, hcond⟩

/-- C6: every anomaly's category has at least 5 transactions in the
window; a category with fewer than 5 transactions is never flagged. -/
theorem anomalies_min_sample (threshold : Rat) (df : List Transaction) (a : Anomaly)
    (h : a ∈ detectAnomalies threshold df) :
    5 ≤ (df.filter fun t => t.category == a.category).length := by
  obtain ⟨t, -, hcat, h5, -⟩ := mem_detectAnomalies h
  rw [hcat]
  exact Nat.not_lt.mp h5

/-- Witness for C6: the flagged outlier of `outlierTxns`. -/
theorem anomalies_min_sample_witness :
    outlierAnomaly ∈ detectAnomalies 2 outlierTxns ∧
    5 ≤ (outlierTxns.filter fun t => t.category == outlierAnomaly.category).length := by
  have hm : outlierAnomaly ∈ detectAnomalies 2 outlierTxns := by
    norm_num +decide [detectAnomalies, detectAnomaliesUnsorted, uniqueFirst, uniqueFirstAux,
      sampleVar, zSqOf, sqrtGT, outlierTxns, outlierAnomaly, List.filter_cons, List.filter_nil]
  exact ⟨hm, anomalies_min_sample 2 outlierTxns outlierAnomaly hm⟩

/-- C7: the anomaly list is sorted descending in the z-score (stated on
the squares, which order exactly as the z-scores do), and anomalies with
equal z-scores keep their encounter order: for every z-value, the flagged
anomalies with that value appear in the same order as in the unsorted,
encounter-ordered list. -/
theorem anomalies_sorted_desc_stable (threshold : Rat) (df : List Transaction) :
    (detectAnomalies threshold df).Pairwise (fun a b => b.zSq ≤ a.zSq) ∧
    ∀ v : Rat,
      (detectAnomalies threshold df).filter (fun a => decide (a.zSq = v))
        = (detectAnomaliesUnsorted threshold df).filter (fun a => decide (a.zSq = v)) := by
  constructor
  · exact List.sorted_insertionSort anomalyGE _
  · intro v
    have hall : ∀ a ∈ (detectAnomaliesUnsorted threshold df).filter
        (fun a => decide (a.zSq = v)), a.zSq = v := by
      intro a ha
      have := List.of_mem_filter ha
      exact of_decide_eq_true this
    have hpw : ((detectAnomaliesUnsorted threshold df).filter
        (fun a => decide (a.zSq = v))).Pairwise anomalyGE := by
      refine List.pairwise_of_forall_mem_list ?_
      intro a ha b hb
      show b.zSq ≤ a.zSq
      rw [hall a ha, hall b hb]
    have hsub : ((detectAnomaliesUnsorted threshold df).filter
        (fun a => decide (a.zSq = v))).Sublist (detectAnomalies threshold df) :=
      List.sublist_insertionSort hpw (List.filter_sublist _)
    have hsub2 : ((detectAnomaliesUnsorted threshold df).filter
        (fun a => decide (a.zSq = v))).Sublist
          ((detectAnomalies threshold df).filter (fun a => decide (a.zSq = v))) := by
      have h2 := hsub.filter (fun a => decide (a.zSq = v))
      rwa [List.filter_eq_self.mpr (by
        intro x hx
        exact (List.mem_filter.mp hx).2)] at h2
    have hperm : ((detectAnomalies threshold df).filter
        (fun a => decide (a.zSq = v))).Perm
          ((detectAnomaliesUnsorted threshold df).filter (fun a => decide (a.zSq = v))) :=
      (List.perm_insertionSort anomalyGE _).filter _
    exact (hsub2.eq_of_length hperm.length_eq.symm).symm

/-- C10: z-scores divide by the sample standard deviation (`pandas`'
default, divisor `n - 1`); a category whose amounts are all equal has
variance 0, its z-scores are the defined fallback 0, and so none of its
transactions is flagged for any positive threshold. -/
theorem anomalies_constant_category (threshold : Rat) (df : List Transaction)
    (c : String) (k : Rat) (ht : 0 < threshold)
    (hconst : ∀ t ∈ df, t.category = c → t.amount = k) :
    (detectAnomalies threshold df).filter (fun a => a.category == c) = [] := by
  rw [List.filter_eq_nil_iff]
  intro a ha hac
  have hac' : a.category = c := by simpa using hac
  obtain ⟨t, ht', hcat, h5, hcond⟩ := mem_detectAnomalies ha
  have htc : t.category = c := hcat ▸ hac'
  rw [htc] at hcond h5
  have hlen5 : 5 ≤ (df.filter fun x => x.category == c).length := Nat.not_lt.mp h5
  have hamounts : ∀ x ∈ (df.filter fun x => x.category == c).map Transaction.amount, x = k := by
    intro x hx
    obtain ⟨u, hu, rfl⟩ := List.mem_map.mp hx
    exact hconst u (List.mem_of_mem_filter hu) (by simpa using List.of_mem_filter hu)
  have hnz : ((((df.filter fun x => x.category == c).map Transaction.amount).length : Nat) : Rat)
      ≠ 0 := by
    rw [List.length_map]
    exact Nat.cast_ne_zero.mpr (by omega)
  have hvar : sampleVar ((df.filter fun x => x.category == c).map Transaction.amount) = 0 :=
    sampleVar_const (by
      intro h0
      rw [h0] at hnz
      simp at hnz) hamounts
  rw [hvar] at hcond
  rw [zSqOf, if_neg (lt_irrefl 0)] at hcond
  rw [sqrtGT] at hcond
  rcases Bool.or_eq_true_iff.mp hcond with hlt | hlt
  · exact absurd (of_decide_eq_true hlt) (not_lt.mpr ht.le)
  · exact absurd (of_decide_eq_true hlt) (not_lt.mpr (by positivity))

/-- Witness for C10: five equal-amount transactions of one category and a
positive threshold yield no anomaly of that category. -/
theorem anomalies_constant_category_witness :
    0 < (2 : Rat) ∧
    (detectAnomalies 2 constantTxns).filter (fun a => a.category == "Agua") = [] :=
  ⟨by norm_num,
   anomalies_constant_category 2 constantTxns "Agua" 7 (by norm_num) (by
     intro t htmem hcat
     simp only [constantTxns, List.mem_cons, List.not_mem_nil, or_false] at htmem
     rcases htmem with rfl | rfl | rfl | rfl | rfl <;> rfl)⟩

end ControleFinanceiro
